import Mathlib

/-!
Verification of the scalar / i256 conversion layer
(`crates/proof-of-sql/src/base/arrow/scalar_and_i256_conversions.rs`).

The Rust code converts between an element of the prime-order scalar field
(order `p = 2^252 + 27742317777372353535851937790883648493`, the
curve25519 scalar field; the hardcoded `MIN_SUPPORTED_I256` /
`MAX_SUPPORTED_I256` literals in the source are derived from this order)
and arrow's `i256`, a 256-bit two's-complement integer.

Embedding choices:
* a scalar is represented by its canonical representative, a natural
  number `c < p`;
* an `i256` is represented by the integer it denotes, an `Int` in
  `[-2^255, 2^255)`; wrapping operations are made explicit with
  `Int.emod` by `2^256`;
* the field primitives used by the Rust code (`MAX_SIGNED`, field
  negation, ordering, limb export `into [u64; 4]`, limb import
  `from [u64; 4]`) live in the `base::scalar` module, which is not part
  of the sources being verified; they are modelled from the spec, as
  documented on each definition.
-/

namespace PoSQL

/-- Modelled from the spec: the order of the scalar field
(`p ≈ 2^252`, curve-scalar-sized).  The spec fixes
`MAX_SIGNED = (p-1)/2` and the source hardcodes
`MAX_SUPPORTED_I256 = ScalarToInt256(MAX_SIGNED)`, which pins
`p = 2 * MAX_SUPPORTED_I256 + 1 = 2^252 + 27742317777372353535851937790883648493`. -/
def p : ℕ := 2 ^ 252 + 27742317777372353535851937790883648493

/-- Modelled from the spec: the field constant `MAX_SIGNED = (p−1)/2`,
the dividing line between "positive" and "negative" signed
interpretations of field residues. -/
def MAX_SIGNED : ℕ := (p - 1) / 2

/-- Modelled from the spec: the field additive inverse, on canonical
representatives: the representative of `-x` is `(p - c) % p` when `x`
has representative `c` (the `%` handles `c = 0`). -/
def scalarNeg (c : ℕ) : ℕ := (p - c) % p

/-- Modelled from the spec: the scalar limb-export primitive
(`abs_scalar.into() : [u64; 4]`): the four little-endian 64-bit words of
the canonical representative. -/
def scalarToLimbs (c : ℕ) : ℕ × ℕ × ℕ × ℕ :=
  (c % 2 ^ 64, c / 2 ^ 64 % 2 ^ 64, c / 2 ^ 128 % 2 ^ 64, c / 2 ^ 192 % 2 ^ 64)

/-- The numeric value encoded by four little-endian 64-bit words. -/
def limbsValue (l : ℕ × ℕ × ℕ × ℕ) : ℕ :=
  l.1 + l.2.1 * 2 ^ 64 + l.2.2.1 * 2 ^ 128 + l.2.2.2 * 2 ^ 192

/-- Modelled from the spec: the scalar limb-import primitive
(`limbs.into() : S`): composes the value of four little-endian 64-bit
words; the spec says each call assumes the encoded value is strictly
less than the field's order, under which the `% p` is the identity. -/
def limbsToScalar (l : ℕ × ℕ × ℕ × ℕ) : ℕ := limbsValue l % p

/-- Reduction of an integer into the two's-complement `i256` range
`[-2^255, 2^255)`; models arrow `i256` wrapping arithmetic
(`wrapping_neg` is `wrapI256 ∘ Int.neg`). -/
def wrapI256 (n : ℤ) : ℤ := (n + 2 ^ 255) % 2 ^ 256 - 2 ^ 255

/-- Reduction of an integer into the two's-complement `i128` range
`[-2^127, 2^127)`; models Rust `i128` wrapping arithmetic (the result of
`<<` keeps only the low 128 bits of the shifted pattern). -/
def wrapI128 (n : ℤ) : ℤ := (n + 2 ^ 127) % 2 ^ 128 - 2 ^ 127

/-- `i256::from_parts(low : u128, high : i128)`: the value
`low + high * 2^128`.  `low` is the unsigned low half (a natural number
`< 2^128`), `high` the signed high half. -/
def i256fromParts (low : ℕ) (high : ℤ) : ℤ := (low : ℤ) + high * 2 ^ 128

/-- The signed (two's-complement) reading of a 128-bit pattern. -/
def signed128 (n : ℕ) : ℤ := if n < 2 ^ 127 then (n : ℤ) else (n : ℤ) - 2 ^ 128

/-- `i256::to_parts`: split a value into its unsigned low 128-bit half
and signed high 128-bit half.  The bit pattern of `v` is `v mod 2^256`. -/
def i256toParts (v : ℤ) : ℕ × ℤ :=
  let pat := (v % 2 ^ 256).toNat
  (pat % 2 ^ 128, signed128 (pat / 2 ^ 128))

/-- `i256::is_negative`. -/
def i256isNegative (v : ℤ) : Bool := v < 0

/-- Truncating cast of a signed value to `u64` (`as u64`): the low
64 bits of the two's-complement pattern. -/
def truncU64 (x : ℤ) : ℕ := (x % 2 ^ 64).toNat

/-- `MIN_SUPPORTED_I256`, the hardcoded `i256::from_parts` literal from
the source. -/
def MIN_SUPPORTED_I256 : ℤ :=
  i256fromParts 326411208032252286695448638536326387210
    (-10633823966279326983230456482242756609)

/-- `MAX_SUPPORTED_I256`, the hardcoded `i256::from_parts` literal from
the source. -/
def MAX_SUPPORTED_I256 : ℤ :=
  i256fromParts 13871158888686176767925968895441824246
    10633823966279326983230456482242756608

/-- The absolute scalar computed by `convert_scalar_to_i256`:
`if is_negative { -*val } else { *val }` where
`is_negative = val > S::MAX_SIGNED` (scalar ordering, modelled from the
spec as the order of canonical representatives). -/
def absScalar (val : ℕ) : ℕ := if MAX_SIGNED < val then scalarNeg val else val

/-- The non-negative `i256` magnitude composed by
`convert_scalar_to_i256` from the exported limbs:
`low = u128::from(limbs[0]) | (u128::from(limbs[1]) << 64)` and
`high = i128::from(limbs[2]) | (i128::from(limbs[3]) << 64)` (the `|` of
disjoint word halves is addition; the `i128` shift keeps the low
128 bits of the pattern, hence the `wrapI128`), then
`i256::from_parts(low, high)`. -/
def absI256 (val : ℕ) : ℤ :=
  let limbs := scalarToLimbs (absScalar val)
  let low : ℕ := limbs.1 + limbs.2.1 * 2 ^ 64
  let high : ℤ := wrapI128 ((limbs.2.2.1 : ℤ) + (limbs.2.2.2 : ℤ) * 2 ^ 64)
  i256fromParts low high

/-- `convert_scalar_to_i256` from the source: export the limbs of the
absolute value, compose an `i256`, and apply `i256::wrapping_neg` when
the scalar's signed interpretation is negative. -/
def convert_scalar_to_i256 (val : ℕ) : ℤ :=
  if MAX_SIGNED < val then wrapI256 (-absI256 val) else absI256 val

/-- The absolute value computed by `convert_i256_to_scalar`:
`if value.is_negative() { -*value } else { *value }` (arrow `i256`
negation wraps at `i256::MIN`). -/
def i256absValue (value : ℤ) : ℤ :=
  if i256isNegative value then wrapI256 (-value) else value

/-- The four 64-bit limbs extracted by `convert_i256_to_scalar` and by
`From<i256> for I256`: `let (low, high) = v.to_parts()` then
`[low as u64, (low >> 64) as u64, high as u64, (high >> 64) as u64]`.
The arithmetic right shift of `high` by 64 is floor division, which for
the positive divisor `2^64` is Euclidean division, Lean's `/` on `ℤ`. -/
def i256Limbs (v : ℤ) : ℕ × ℕ × ℕ × ℕ :=
  let parts := i256toParts v
  (parts.1 % 2 ^ 64, parts.1 / 2 ^ 64, truncU64 parts.2,
    truncU64 (parts.2 / 2 ^ 64))

/-- `convert_i256_to_scalar` from the source: range check against the
hardcoded bounds, limb-split the absolute value, import the limbs as a
scalar and negate it in the field when the input was negative. -/
def convert_i256_to_scalar (value : ℤ) : Option ℕ :=
  if value < MIN_SUPPORTED_I256 ∨ MAX_SUPPORTED_I256 < value then none
  else
    let abs_value := i256absValue value
    let scalar := limbsToScalar (i256Limbs abs_value)
    some (if i256isNegative value then scalarNeg scalar else scalar)

/-- `From<i256> for math::i256::I256` from the source
(`Int256Normalize`): split into parts and emit the four 64-bit words as
`I256::new([...])`; the output is the little-endian word list. -/
def arrowToPosqlI256 (value : ℤ) : List ℕ :=
  let parts := i256toParts value
  [parts.1 % 2 ^ 64, parts.1 / 2 ^ 64, truncU64 parts.2,
    truncU64 (parts.2 / 2 ^ 64)]

/-! ### Core lemmas -/

set_option maxRecDepth 100000

/-- `wrapI256` is the identity on the `i256` range. -/
lemma wrapI256_eq_self (n : ℤ) (h1 : -(2 ^ 255) ≤ n) (h2 : n < 2 ^ 255) :
    wrapI256 n = n := by
  unfold wrapI256; omega

/-- `wrapI128` is the identity on the `i128` range. -/
lemma wrapI128_eq_self (n : ℤ) (h1 : -(2 ^ 127) ≤ n) (h2 : n < 2 ^ 127) :
    wrapI128 n = n := by
  unfold wrapI128; omega

/-- The two hardcoded bound constants are `±MAX_SIGNED`. -/
lemma MAX_SUPPORTED_eq : MAX_SUPPORTED_I256 = (MAX_SIGNED : ℤ) := by decide

lemma MIN_SUPPORTED_eq : MIN_SUPPORTED_I256 = -(MAX_SIGNED : ℤ) := by decide

/-- The absolute scalar of `convert_scalar_to_i256`, in closed form. -/
lemma absScalar_eq (c : ℕ) (h : c < p) :
    absScalar c = if c ≤ MAX_SIGNED then c else p - c := by
  unfold absScalar scalarNeg MAX_SIGNED p at *
  split_ifs <;> omega

/-- The composed magnitude equals the absolute scalar whenever the
latter fits under `2^255` (no truncation in the limb round trip). -/
lemma absI256_eq (val : ℕ) (h : absScalar val < 2 ^ 255) :
    absI256 val = (absScalar val : ℤ) := by
  simp only [absI256, scalarToLimbs, i256fromParts, wrapI128]
  generalize absScalar val = a at *
  omega

/-- `convert_scalar_to_i256` in closed form: the signed interpretation
of the canonical representative. -/
lemma convert_scalar_to_i256_eq (c : ℕ) (h : c < p) :
    convert_scalar_to_i256 c =
      if c ≤ MAX_SIGNED then (c : ℤ) else (c : ℤ) - (p : ℤ) := by
  have habs := absScalar_eq c h
  have hM : MAX_SIGNED < 2 ^ 255 := by decide
  have hp : p < 2 ^ 255 := by decide
  have hlt : absScalar c < 2 ^ 255 := by rw [habs]; split_ifs <;> omega
  have hI := absI256_eq c hlt
  unfold convert_scalar_to_i256
  rw [hI, habs]
  rcases le_or_lt c MAX_SIGNED with h1 | h1
  · simp only [if_pos h1, if_neg (by omega : ¬ MAX_SIGNED < c)]
  · simp only [if_pos h1, if_neg (by omega : ¬ c ≤ MAX_SIGNED)]
    rw [wrapI256_eq_self] <;> omega

/-- For a non-negative value below `2^255`, the limbs extracted by
`convert_i256_to_scalar` encode exactly the value. -/
lemma limbsValue_i256Limbs (a : ℤ) (h0 : 0 ≤ a) (h1 : a < 2 ^ 255) :
    limbsValue (i256Limbs a) = a.toNat := by
  simp only [i256Limbs, i256toParts, truncU64, signed128, limbsValue]
  split_ifs <;> omega

/-- `convert_i256_to_scalar` on an in-range input returns the canonical
representative of the input's residue class. -/
lemma convert_i256_to_scalar_in_range (v : ℤ)
    (h1 : MIN_SUPPORTED_I256 ≤ v) (h2 : v ≤ MAX_SUPPORTED_I256) :
    convert_i256_to_scalar v = some ((v % (p : ℤ)).toNat) := by
  rw [MIN_SUPPORTED_eq] at h1
  rw [MAX_SUPPORTED_eq] at h2
  have hM : (MAX_SIGNED : ℤ) < 2 ^ 255 := by decide
  have hp : 2 * (MAX_SIGNED : ℤ) + 1 = (p : ℤ) := by decide
  unfold convert_i256_to_scalar
  rw [if_neg (by rw [MIN_SUPPORTED_eq, MAX_SUPPORTED_eq]; omega)]
  simp only [i256absValue, i256isNegative, decide_eq_true_eq]
  by_cases hv : v < 0
  · rw [if_pos hv, if_pos hv]
    rw [wrapI256_eq_self (-v) (by omega) (by omega)]
    unfold limbsToScalar
    rw [limbsValue_i256Limbs (-v) (by omega) (by omega)]
    congr 1
    unfold scalarNeg MAX_SIGNED p at *
    omega
  · rw [if_neg hv, if_neg hv]
    unfold limbsToScalar
    rw [limbsValue_i256Limbs v (by omega) (by omega)]
    congr 1
    unfold MAX_SIGNED p at *
    omega

/-! ### Claim theorems -/

/-- C1: for every scalar `S` (canonical representative `c < p`),
`convert_i256_to_scalar (convert_scalar_to_i256 S) = Some S`. -/
theorem C1_total_round_trip (c : ℕ) (h : c < p) :
    convert_i256_to_scalar (convert_scalar_to_i256 c) = some c := by
  have hc := convert_scalar_to_i256_eq c h
  have hp : 2 * MAX_SIGNED + 1 = p := by decide
  rcases le_or_lt c MAX_SIGNED with h1 | h1
  · rw [hc, if_pos h1]
    rw [convert_i256_to_scalar_in_range _ (by rw [MIN_SUPPORTED_eq]; omega)
      (by rw [MAX_SUPPORTED_eq]; omega)]
    congr 1
    unfold MAX_SIGNED p at *
    omega
  · rw [hc, if_neg (by omega)]
    rw [convert_i256_to_scalar_in_range _ (by rw [MIN_SUPPORTED_eq]; omega)
      (by rw [MAX_SUPPORTED_eq]; omega)]
    congr 1
    unfold MAX_SIGNED p at *
    omega

/-- C1 witness: the round trip at the concrete scalar `42`. -/
theorem C1_total_round_trip_witness :
    (42 : ℕ) < p ∧
      convert_i256_to_scalar (convert_scalar_to_i256 42) = some 42 :=
  ⟨by decide, C1_total_round_trip 42 (by decide)⟩

/-- C2: every `i256` between `MIN_SUPPORTED_I256` and
`MAX_SUPPORTED_I256` converts to some scalar, and converting that scalar
back yields the original `i256` exactly. -/
theorem C2_bounded_round_trip (v : ℤ) (h1 : MIN_SUPPORTED_I256 ≤ v)
    (h2 : v ≤ MAX_SUPPORTED_I256) :
    ∃ s, convert_i256_to_scalar v = some s ∧ convert_scalar_to_i256 s = v := by
  refine ⟨(v % (p : ℤ)).toNat, convert_i256_to_scalar_in_range v h1 h2, ?_⟩
  rw [MIN_SUPPORTED_eq] at h1
  rw [MAX_SUPPORTED_eq] at h2
  have hs : (v % (p : ℤ)).toNat < p := by unfold MAX_SIGNED p at *; omega
  rw [convert_scalar_to_i256_eq _ hs]
  unfold MAX_SIGNED p at *
  split_ifs <;> omega

/-- C2 witness: the bounded round trip at the concrete input `-5`. -/
theorem C2_bounded_round_trip_witness :
    MIN_SUPPORTED_I256 ≤ -5 ∧ (-5 : ℤ) ≤ MAX_SUPPORTED_I256 ∧
      ∃ s, convert_i256_to_scalar (-5) = some s ∧
        convert_scalar_to_i256 s = -5 :=
  ⟨by decide, by decide, C2_bounded_round_trip (-5) (by decide) (by decide)⟩

/-- C4: the hardcoded `i256::from_parts` literals agree with the values
derived from the field: `MAX_SUPPORTED_I256 = convert_scalar_to_i256
MAX_SIGNED` and `MIN_SUPPORTED_I256 = -MAX_SUPPORTED_I256` exactly. -/
theorem C4_bound_constants :
    MAX_SUPPORTED_I256 = convert_scalar_to_i256 MAX_SIGNED ∧
      MIN_SUPPORTED_I256 = -MAX_SUPPORTED_I256 := by
  constructor <;> decide

/-- C5: `convert_scalar_to_i256` realizes the signed interpretation of
the canonical representative — `c` itself when `c ≤ MAX_SIGNED`, and
`c - p` when `c > MAX_SIGNED` — and in particular maps scalar `0` to
`0`, `12345` to `12345`, the scalar representing `-12345` to `-12345`,
and `MAX_SIGNED` to `MAX_SUPPORTED_I256`. -/
theorem C5_signed_interpretation :
    (∀ c : ℕ, c < p →
      convert_scalar_to_i256 c =
        if c ≤ MAX_SIGNED then (c : ℤ) else (c : ℤ) - (p : ℤ)) ∧
    convert_scalar_to_i256 0 = 0 ∧
    convert_scalar_to_i256 12345 = 12345 ∧
    convert_scalar_to_i256 (p - 12345) = -12345 ∧
    convert_scalar_to_i256 MAX_SIGNED = MAX_SUPPORTED_I256 :=
  ⟨convert_scalar_to_i256_eq, by decide, by decide, by decide, by decide⟩

/-- C5 witness: the general clause applied at the concrete scalar
`12345`. -/
theorem C5_signed_interpretation_witness :
    (12345 : ℕ) < p ∧ convert_scalar_to_i256 12345 = (12345 : ℤ) := by
  have h := C5_signed_interpretation.1 12345 (by decide)
  rw [if_pos (by decide)] at h
  exact ⟨by decide, by rw [h]; decide⟩

/-- C6: `convert_i256_to_scalar MIN_SUPPORTED_I256` succeeds and returns
the scalar with canonical representative `MAX_SIGNED + 1`, which is the
field negation of `MAX_SIGNED`. -/
theorem C6_min_supported_value :
    convert_i256_to_scalar MIN_SUPPORTED_I256 = some (MAX_SIGNED + 1) ∧
      MAX_SIGNED + 1 = scalarNeg MAX_SIGNED := by
  constructor <;> decide

/-- C3: `convert_i256_to_scalar` returns `none` exactly on `i256`
inputs outside `[MIN_SUPPORTED_I256, MAX_SUPPORTED_I256]`; in particular
at `MAX_SUPPORTED_I256 + 1`, `MIN_SUPPORTED_I256 - 1`,
`i256::MAX = 2^255 - 1` and `i256::MIN = -2^255`, and it returns `some`
on every in-range input. -/
theorem C3_none_iff_out_of_range :
    (∀ v : ℤ, -(2 ^ 255) ≤ v → v < 2 ^ 255 →
      (convert_i256_to_scalar v = none ↔
        v < MIN_SUPPORTED_I256 ∨ MAX_SUPPORTED_I256 < v)) ∧
    convert_i256_to_scalar (MAX_SUPPORTED_I256 + 1) = none ∧
    convert_i256_to_scalar (MIN_SUPPORTED_I256 - 1) = none ∧
    convert_i256_to_scalar (2 ^ 255 - 1) = none ∧
    convert_i256_to_scalar (-(2 ^ 255)) = none := by
  refine ⟨?_, by decide, by decide, by decide, by decide⟩
  intro v _ _
  constructor
  · intro hnone
    by_contra hout
    rw [convert_i256_to_scalar_in_range v (by omega) (by omega)] at hnone
    exact Option.noConfusion hnone
  · intro hout
    unfold convert_i256_to_scalar
    rw [if_pos hout]

/-- C3 witness: the rejection equivalence applied at the concrete input
`MAX_SUPPORTED_I256 + 1`. -/
theorem C3_none_iff_out_of_range_witness :
    -(2 ^ 255) ≤ MAX_SUPPORTED_I256 + 1 ∧
      MAX_SUPPORTED_I256 + 1 < 2 ^ 255 ∧
      (convert_i256_to_scalar (MAX_SUPPORTED_I256 + 1) = none ↔
        MAX_SUPPORTED_I256 + 1 < MIN_SUPPORTED_I256 ∨
          MAX_SUPPORTED_I256 < MAX_SUPPORTED_I256 + 1) :=
  ⟨by decide, by decide,
    C3_none_iff_out_of_range.1 _ (by decide) (by decide)⟩

/-- C7: the normalization conversion `From<i256> for I256` is total over
the whole `i256` range and returns exactly the four little-endian 64-bit
words of the input's two's-complement bit pattern (`v mod 2^256`); in
particular the five spec vectors hold. -/
theorem C7_normalize_bit_pattern :
    (∀ v : ℤ, -(2 ^ 255) ≤ v → v < 2 ^ 255 →
      arrowToPosqlI256 v =
        [(v % 2 ^ 256).toNat % 2 ^ 64,
          (v % 2 ^ 256).toNat / 2 ^ 64 % 2 ^ 64,
          (v % 2 ^ 256).toNat / 2 ^ 128 % 2 ^ 64,
          (v % 2 ^ 256).toNat / 2 ^ 192 % 2 ^ 64]) ∧
    arrowToPosqlI256 0 = [0, 0, 0, 0] ∧
    arrowToPosqlI256 1 = [1, 0, 0, 0] ∧
    arrowToPosqlI256 (-1) =
      [2 ^ 64 - 1, 2 ^ 64 - 1, 2 ^ 64 - 1, 2 ^ 64 - 1] ∧
    arrowToPosqlI256 (2 ^ 255 - 1) =
      [2 ^ 64 - 1, 2 ^ 64 - 1, 2 ^ 64 - 1, 2 ^ 63 - 1] ∧
    arrowToPosqlI256 (-(2 ^ 255)) = [0, 0, 0, 2 ^ 63] := by
  refine ⟨?_, by decide, by decide, by decide, by decide, by decide⟩
  intro v _ _
  simp only [arrowToPosqlI256, i256toParts, truncU64, signed128]
  split_ifs <;> simp only [List.cons.injEq, and_true] <;>
    refine ⟨?_, ?_, ?_, ?_⟩ <;> omega

/-- C7 witness: the word-pattern clause applied at the concrete input
`-1`. -/
theorem C7_normalize_bit_pattern_witness :
    -(2 ^ 255) ≤ (-1 : ℤ) ∧ (-1 : ℤ) < 2 ^ 255 ∧
      arrowToPosqlI256 (-1) =
        [((-1 : ℤ) % 2 ^ 256).toNat % 2 ^ 64,
          ((-1 : ℤ) % 2 ^ 256).toNat / 2 ^ 64 % 2 ^ 64,
          ((-1 : ℤ) % 2 ^ 256).toNat / 2 ^ 128 % 2 ^ 64,
          ((-1 : ℤ) % 2 ^ 256).toNat / 2 ^ 192 % 2 ^ 64] :=
  ⟨by decide, by decide, C7_normalize_bit_pattern.1 (-1) (by decide) (by decide)⟩

/-- C8: on every in-range input the negation taken by
`convert_i256_to_scalar` for negative values is exact (never wraps), the
computed absolute value is at most `MAX_SIGNED`, and the limb array
handed to the scalar limb-import primitive encodes a value strictly
below the field order `p`. -/
theorem C8_in_range_safety (v : ℤ) (h1 : MIN_SUPPORTED_I256 ≤ v)
    (h2 : v ≤ MAX_SUPPORTED_I256) :
    (i256isNegative v = true → wrapI256 (-v) = -v) ∧
      i256absValue v ≤ (MAX_SIGNED : ℤ) ∧
      limbsValue (i256Limbs (i256absValue v)) < p := by
  rw [MIN_SUPPORTED_eq] at h1
  rw [MAX_SUPPORTED_eq] at h2
  have hM : (MAX_SIGNED : ℤ) < 2 ^ 255 := by decide
  have hp : 2 * (MAX_SIGNED : ℤ) + 1 = (p : ℤ) := by decide
  have hw : i256absValue v = if v < 0 then -v else v := by
    unfold i256absValue i256isNegative
    simp only [decide_eq_true_eq]
    split_ifs with hv
    · exact wrapI256_eq_self (-v) (by omega) (by omega)
    · rfl
  refine ⟨?_, ?_, ?_⟩
  · intro hneg
    replace hneg : v < 0 := by simpa [i256isNegative] using hneg
    exact wrapI256_eq_self (-v) (by omega) (by omega)
  · rw [hw]; split_ifs <;> omega
  · rw [hw,
      limbsValue_i256Limbs _ (by split_ifs <;> omega) (by split_ifs <;> omega)]
    unfold MAX_SIGNED p at *
    split_ifs <;> omega

/-- C8 witness: the safety facts at the concrete in-range input `-7`. -/
theorem C8_in_range_safety_witness :
    MIN_SUPPORTED_I256 ≤ -7 ∧ (-7 : ℤ) ≤ MAX_SUPPORTED_I256 ∧
      ((i256isNegative (-7) = true → wrapI256 (-(-7)) = -(-7)) ∧
        i256absValue (-7) ≤ (MAX_SIGNED : ℤ) ∧
        limbsValue (i256Limbs (i256absValue (-7))) < p) :=
  ⟨by decide, by decide, C8_in_range_safety (-7) (by decide) (by decide)⟩

/-- C9: the structural precondition `MAX_SIGNED < 2^255` holds, and for
every scalar the high limb of the absolute value has its sign bit clear,
so the composed magnitude is non-negative, is never `i256::MIN`, and the
wrapping negation applied in the negative branch is exact two's-complement
negation: `convert_scalar_to_i256` is total and never panics. -/
theorem C9_scalar_to_i256_total_safe :
    MAX_SIGNED < 2 ^ 255 ∧
      ∀ c : ℕ, c < p →
        (scalarToLimbs (absScalar c)).2.2.2 < 2 ^ 63 ∧
          0 ≤ absI256 c ∧
          absI256 c ≠ -(2 ^ 255) ∧
          wrapI256 (-absI256 c) = -absI256 c := by
  refine ⟨by decide, ?_⟩
  intro c h
  have habs := absScalar_eq c h
  have ha : absScalar c < 2 ^ 252 := by
    rw [habs]; unfold MAX_SIGNED p at *; split_ifs <;> omega
  have hI := absI256_eq c (by omega)
  refine ⟨?_, ?_, ?_, ?_⟩
  · have hproj : (scalarToLimbs (absScalar c)).2.2.2 =
        absScalar c / 2 ^ 192 % 2 ^ 64 := rfl
    rw [hproj]
    omega
  · rw [hI]; omega
  · rw [hI]; omega
  · rw [hI]
    exact wrapI256_eq_self _ (by omega) (by omega)

/-- C9 witness: the per-scalar safety facts at the concrete scalar `5`. -/
theorem C9_scalar_to_i256_total_safe_witness :
    (5 : ℕ) < p ∧
      ((scalarToLimbs (absScalar 5)).2.2.2 < 2 ^ 63 ∧
        0 ≤ absI256 5 ∧
        absI256 5 ≠ -(2 ^ 255) ∧
        wrapI256 (-absI256 5) = -absI256 5) :=
  ⟨by decide, C9_scalar_to_i256_total_safe.2 5 (by decide)⟩

/-- C10: converting the field additive inverse of a scalar gives the
wrapping two's-complement negation of converting the scalar, and the
resulting `i256` is negative exactly when the canonical representative
exceeds `MAX_SIGNED`. -/
theorem C10_negation_homomorphism (c : ℕ) (h : c < p) :
    convert_scalar_to_i256 (scalarNeg c) =
      wrapI256 (-convert_scalar_to_i256 c) ∧
      (convert_scalar_to_i256 c < 0 ↔ MAX_SIGNED < c) := by
  have h1 := convert_scalar_to_i256_eq c h
  have hn : scalarNeg c < p := by unfold scalarNeg p; omega
  have h2 := convert_scalar_to_i256_eq (scalarNeg c) hn
  have hM : MAX_SIGNED < 2 ^ 255 := by decide
  have hp : 2 * MAX_SIGNED + 1 = p := by decide
  refine ⟨?_, ?_⟩
  · rw [h1, h2,
      wrapI256_eq_self (-(if c ≤ MAX_SIGNED then (c : ℤ) else (c : ℤ) - (p : ℤ)))
        (by split_ifs <;> omega) (by split_ifs <;> omega)]
    unfold scalarNeg MAX_SIGNED p at *
    split_ifs <;> omega
  · rw [h1]
    unfold MAX_SIGNED p at *
    split_ifs <;> omega

/-- C10 witness: the negation homomorphism at the concrete scalar `1`. -/
theorem C10_negation_homomorphism_witness :
    (1 : ℕ) < p ∧
      (convert_scalar_to_i256 (scalarNeg 1) =
          wrapI256 (-convert_scalar_to_i256 1) ∧
        (convert_scalar_to_i256 1 < 0 ↔ MAX_SIGNED < 1)) :=
  ⟨by decide, C10_negation_homomorphism 1 (by decide)⟩

end PoSQL
